import Mathlib

/-!
Verification development for the quantum-OTP service.

The embedding follows the Python sources:
  src/chatapp.py               (HTTP handlers, store, email, OTP encoding)
  src/quantum_otp_generator.py (OTP generation on top of the adaptive QRNG)
  src/adaptive_qrng.py         (adaptive_rotation_qrng and fallback_qrng)

Conventions of the embedding:
  - Randomness sources are injected explicitly: the fallback bit draw
    (uniform angle, Born-rule sine-squared probability, uniform comparison)
    is abstracted to the resulting per-draw bit, a function Nat -> Bool,
    and the quantum backend measurement is a function from circuit index
    to the measured bit list.  All claims under study quantify over the
    randomness source, never over a particular distribution.
  - Python float arithmetic on the probability summaries is modelled
    exactly over the rationals.
  - Code that raises an uncaught exception is modelled with Option or
    Except, returning none or an error value at exactly the inputs where
    the Python code raises.
  - Time is modelled as a natural number of seconds.
-/

/-! ## Decimal strings and the sequence-to-OTP encoder (chatapp.py lines 41-46,
    quantum_otp_generator.py lines 27-29) -/

/-- Big-endian value of a bit string, as in the Python `int(bitstring, 2)`. -/
def bitsToNat (bits : List Bool) : Nat :=
  bits.foldl (fun acc b => 2 * acc + (if b then 1 else 0)) 0

/-- Big-endian decimal digits of `n`, fuel-driven so that the kernel can
    evaluate it.  `natToDecAux fuel n` is the digit-character list of `n`
    whenever `n <= fuel`. -/
def natToDecAux : Nat → Nat → List Char
  | 0, _ => []
  | fuel + 1, n =>
    if n = 0 then []
    else natToDecAux fuel (n / 10) ++ [Char.ofNat (48 + n % 10)]

/-- Decimal representation of a natural number, as produced by the Python
    `format(n, "d")`. -/
def decimalString (n : Nat) : String :=
  if n = 0 then "0" else String.mk (natToDecAux n n)

/-- Left zero-padding to a given width, as in the Python format spec `0Nd`. -/
def zfill (s : String) (width : Nat) : String :=
  String.mk (List.replicate (width - s.length) '0' ++ s.data)

/-- The OTP encoder of `generate_quantum_otp` in src/chatapp.py lines 41-46:
    interpret the measured bit string as a big-endian binary integer, reduce
    it modulo `10 ^ length`, and format zero-padded to `length` digits.
    The measured bit string is passed in explicitly. -/
def generate_quantum_otp (randomBits : List Bool) (length : Nat) : String :=
  zfill (decimalString (bitsToNat randomBits % 10 ^ length)) length

/-- Value of a decimal digit string, reading the characters back as digits.
    Used to state that the encoder output is the decimal representation of
    the reduced integer. -/
def decodeDecimal (s : String) : Nat :=
  s.data.foldl (fun acc c => 10 * acc + (c.toNat - 48)) 0

lemma natToDecAux_length_le (fuel : Nat) :
    ∀ (n L : Nat), n < 10 ^ L → (natToDecAux fuel n).length ≤ L := by
  induction fuel with
  | zero => intro n L _; simp [natToDecAux]
  | succ fuel ih =>
    intro n L hn
    by_cases h0 : n = 0
    · simp [natToDecAux, h0]
    · cases L with
      | zero =>
        exfalso
        have : n = 0 := by simpa using Nat.lt_one_iff.mp (by simpa using hn)
        exact h0 this
      | succ L =>
        have hdiv : n / 10 < 10 ^ L := by
          have h10 : (0:Nat) < 10 := by norm_num
          rw [Nat.div_lt_iff_lt_mul h10]
          calc n < 10 ^ (L + 1) := hn
            _ = 10 ^ L * 10 := by ring
        have := ih (n / 10) L hdiv
        simp only [natToDecAux, h0, if_false, List.length_append,
          List.length_cons, List.length_nil]
        omega

lemma natToDecAux_chars (fuel : Nat) :
    ∀ (n : Nat), ∀ c ∈ natToDecAux fuel n, '0' ≤ c ∧ c ≤ '9' := by
  induction fuel with
  | zero => intro n c hc; simp [natToDecAux] at hc
  | succ fuel ih =>
    intro n c hc
    by_cases h0 : n = 0
    · simp [natToDecAux, h0] at hc
    · simp only [natToDecAux, h0, if_false, List.mem_append,
        List.mem_singleton] at hc
      rcases hc with hc | hc
      · exact ih (n / 10) c hc
      · subst hc
        have hd : n % 10 < 10 := Nat.mod_lt _ (by norm_num)
        interval_cases h : n % 10 <;> decide

lemma char_toNat_digit (d : Nat) (hd : d < 10) :
    (Char.ofNat (48 + d)).toNat = 48 + d := by
  interval_cases d <;> decide

lemma decodeList_append (l1 l2 : List Char) (a : Nat) :
    (l1 ++ l2).foldl (fun acc c => 10 * acc + (c.toNat - 48)) a
      = l2.foldl (fun acc c => 10 * acc + (c.toNat - 48))
          (l1.foldl (fun acc c => 10 * acc + (c.toNat - 48)) a) := by
  simp [List.foldl_append]

lemma natToDecAux_decode (fuel : Nat) :
    ∀ n, n ≤ fuel →
      (natToDecAux fuel n).foldl (fun acc c => 10 * acc + (c.toNat - 48)) 0
        = n := by
  induction fuel with
  | zero =>
    intro n hn
    have : n = 0 := Nat.le_zero.mp hn
    simp [natToDecAux, this]
  | succ fuel ih =>
    intro n hn
    by_cases h0 : n = 0
    · simp [natToDecAux, h0]
    · have hlt : n / 10 < n := Nat.div_lt_self (Nat.pos_of_ne_zero h0) (by norm_num)
      have hle : n / 10 ≤ fuel := by omega
      have hmod : n % 10 < 10 := Nat.mod_lt _ (by norm_num)
      simp only [natToDecAux, h0, if_false]
      rw [decodeList_append]
      simp only [List.foldl_cons, List.foldl_nil]
      rw [ih (n / 10) hle, char_toNat_digit (n % 10) hmod]
      omega

lemma decodeDecimal_decimalString (n : Nat) :
    decodeDecimal (decimalString n) = n := by
  by_cases h0 : n = 0
  · simp [decimalString, decodeDecimal, h0]
  · simp only [decimalString, h0, if_false, decodeDecimal]
    exact natToDecAux_decode n n le_rfl

lemma foldl_replicate_zero_char (k : Nat) :
    (List.replicate k '0').foldl (fun acc c => 10 * acc + (c.toNat - 48)) 0
      = 0 := by
  induction k with
  | zero => simp
  | succ k ih => simpa [List.replicate_succ] using ih

lemma decodeDecimal_zfill (s : String) (w : Nat) :
    decodeDecimal (zfill s w) = decodeDecimal s := by
  simp only [decodeDecimal, zfill]
  rw [decodeList_append, foldl_replicate_zero_char]

lemma decimalString_length_le (n L : Nat) (hL : 1 ≤ L) (hn : n < 10 ^ L) :
    (decimalString n).length ≤ L := by
  by_cases h0 : n = 0
  · simp only [decimalString, h0, if_pos rfl]
    simpa using hL
  · simp only [decimalString, h0, if_false]
    have := natToDecAux_length_le n n L hn
    simpa [String.length] using this

/-- C1: for every bit string of length at least one and every positive
    digit length, `generate_quantum_otp` returns a string of exactly
    `L` characters, each a decimal digit, whose decimal value is the
    big-endian value of the bit string reduced modulo `10 ^ L`. -/
theorem generate_quantum_otp_is_modular_decimal (bits : List Bool) (L : Nat)
    (hb : 1 ≤ bits.length) (hL : 1 ≤ L) :
    (generate_quantum_otp bits L).length = L
    ∧ (∀ c ∈ (generate_quantum_otp bits L).data, '0' ≤ c ∧ c ≤ '9')
    ∧ decodeDecimal (generate_quantum_otp bits L) = bitsToNat bits % 10 ^ L := by
  have hpow : (0:Nat) < 10 ^ L := Nat.pos_pow_of_pos L (by norm_num)
  have hmod : bitsToNat bits % 10 ^ L < 10 ^ L := Nat.mod_lt _ hpow
  have hslen : (decimalString (bitsToNat bits % 10 ^ L)).length ≤ L :=
    decimalString_length_le _ L hL hmod
  have hslen2 : (decimalString (bitsToNat bits % 10 ^ L)).data.length ≤ L := hslen
  refine ⟨?_, ?_, ?_⟩
  · simp only [generate_quantum_otp, zfill, String.length, List.length_append,
      List.length_replicate]
    omega
  · intro c hc
    simp only [generate_quantum_otp, zfill, List.mem_append,
      List.mem_replicate] at hc
    rcases hc with ⟨_, hc⟩ | hc
    · subst hc; decide
    · by_cases h0 : bitsToNat bits % 10 ^ L = 0
      · simp only [decimalString, h0, if_pos rfl] at hc
        have : c = '0' := by simpa using hc
        subst this; decide
      · simp only [decimalString, h0, if_false] at hc
        exact natToDecAux_chars _ _ c hc
  · simp only [generate_quantum_otp]
    rw [decodeDecimal_zfill, decodeDecimal_decimalString]

/-- Witness for C1: the 24-bit stream 101010101010101010101010 with six
    digits produces the OTP 184810, and the theorem applies to it. -/
theorem generate_quantum_otp_is_modular_decimal_witness :
    1 ≤ ([true, false, true, false, true, false, true, false, true, false,
          true, false, true, false, true, false, true, false, true, false,
          true, false, true, false] : List Bool).length
    ∧ 1 ≤ 6
    ∧ ((generate_quantum_otp [true, false, true, false, true, false, true,
          false, true, false, true, false, true, false, true, false, true,
          false, true, false, true, false, true, false] 6).length = 6
       ∧ (∀ c ∈ (generate_quantum_otp [true, false, true, false, true, false,
            true, false, true, false, true, false, true, false, true, false,
            true, false, true, false, true, false, true, false] 6).data,
            '0' ≤ c ∧ c ≤ '9')
       ∧ decodeDecimal (generate_quantum_otp [true, false, true, false, true,
            false, true, false, true, false, true, false, true, false, true,
            false, true, false, true, false, true, false, true, false] 6)
          = bitsToNat [true, false, true, false, true, false, true, false,
              true, false, true, false, true, false, true, false, true, false,
              true, false, true, false, true, false] % 10 ^ 6)
    ∧ generate_quantum_otp [true, false, true, false, true, false, true,
        false, true, false, true, false, true, false, true, false, true,
        false, true, false, true, false, true, false] 6 = "184810" :=
  ⟨by decide, by decide,
   generate_quantum_otp_is_modular_decimal _ 6 (by decide) (by decide),
   by decide⟩

/-! ## The adaptive QRNG (src/adaptive_qrng.py) -/

/-- An injected randomness source for the fallback generator: the bit
    produced by one iteration of the fallback loop (uniform angle, Born-rule
    sine-squared probability, uniform comparison) at a given draw index. -/
abbrev BitSource := Nat → Bool

/-- One record of the compatibility history built at
    src/adaptive_qrng.py lines 71-77 and 122-129. -/
structure RoundRecord where
  iter : Nat
  thetas : List Rat
  p1 : List Rat
deriving DecidableEq

/-- The history list built at src/adaptive_qrng.py lines 71-77 and 122-129:
    `iterations + warmup` records, each with constant thetas `initTheta` and
    constant per-channel p1 of one half. -/
def mkHistory (iterations warmup nQubits : Nat) (initTheta : Rat) :
    List RoundRecord :=
  (List.range (iterations + warmup)).map
    (fun it => ⟨it, List.replicate nQubits initTheta,
                List.replicate nQubits (1/2)⟩)

/-- Return value of the generators: history, sequences, and the probability
    summary (p0 and p1 as exact fractions standing for the Python floats;
    the Python dict carries them scaled by 100). -/
structure QrngResult where
  history : List RoundRecord
  sequences : List (List Bool)
  p0 : Rat
  p1 : Rat
deriving DecidableEq

/-- The collected bit list of the fallback loop at
    src/adaptive_qrng.py lines 109-120: one injected bit per draw index. -/
def collectedBitsFallback (rb : BitSource) (totalBits : Nat) : List Bool :=
  (List.range totalBits).map rb

/-- The sequence slicing at src/adaptive_qrng.py lines 79-82 and 131-134:
    chunks of `seqLength` starting at multiples of `seqLength`, the Python
    comprehension over `range(0, len(bits), seq_length)`. -/
def chunkBits (bits : List Bool) (seqLength : Nat) : List (List Bool) :=
  (List.range ((bits.length + seqLength - 1) / seqLength)).map
    (fun i => (bits.drop (i * seqLength)).take seqLength)

/-- Number of one bits, the Python `sum(int(b) for b in collected_bits)`. -/
def countOnes (bits : List Bool) : Nat := bits.count true

/-- `fallback_qrng` of src/adaptive_qrng.py lines 99-145, with the per-draw
    bit injected through `rb`.  Returns `none` exactly when the Python code
    raises (division by zero in the probability summary when
    `seq_length * num_seqs = 0`). -/
def fallback_qrng (rb : BitSource) (seqLength numSeqs nQubits iterations
    warmup : Nat) (initTheta : Rat) : Option QrngResult :=
  let totalBits := seqLength * numSeqs
  let collected := collectedBitsFallback rb totalBits
  if collected.length = 0 then none
  else
    some ⟨mkHistory iterations warmup nQubits initTheta,
          chunkBits collected seqLength,
          ((collected.length - countOnes collected : Nat) : Rat)
            / (collected.length : Rat),
          ((countOnes collected : Nat) : Rat) / (collected.length : Rat)⟩

/-- The IBM-backend path of `adaptive_rotation_qrng`
    (src/adaptive_qrng.py lines 29-92), with the per-circuit measured bit
    list injected through `measure`.  Returns `none` exactly when the Python
    body raises inside the `try` block: division by zero computing
    `circuits_needed` when `n_qubits = 0`, or in the probability summary
    when no bits were collected. -/
def quantumPath (measure : Nat → List Bool) (nQubits iterations warmup : Nat)
    (initTheta : Rat) (seqLength numSeqs : Nat) : Option QrngResult :=
  if nQubits = 0 then none
  else
    let totalNeeded := seqLength * numSeqs
    let circuitsNeeded := (totalNeeded + nQubits - 1) / nQubits
    let collected :=
      (((List.range circuitsNeeded).map measure).flatten).take totalNeeded
    if collected.length = 0 then none
    else
      some ⟨mkHistory iterations warmup nQubits initTheta,
            chunkBits collected seqLength,
            ((collected.length - countOnes collected : Nat) : Rat)
              / (collected.length : Rat),
            ((countOnes collected : Nat) : Rat) / (collected.length : Rat)⟩

/-- `adaptive_rotation_qrng` of src/adaptive_qrng.py lines 8-97.  The
    environment token is `apiToken`; `backend` is the outcome of
    initializing the IBM service (measurement function, or a raised error).
    With no token it returns the fallback (lines 25-27); with a backend
    error, or any exception inside the `try` block, the `except` handler
    returns the fallback (lines 94-97).  The parameters `shots`, `lr` and
    `tolerance` are accepted and never used, as in the source. -/
def adaptive_rotation_qrng (apiToken : Option String)
    (backend : Except String (Nat → List Bool)) (rb : BitSource)
    (nQubits shots iterations warmup : Nat) (initTheta lr : Rat)
    (seqLength numSeqs : Nat) (tolerance : Rat) : Option QrngResult :=
  match apiToken with
  | none => fallback_qrng rb seqLength numSeqs nQubits iterations warmup initTheta
  | some _ =>
    match backend with
    | Except.error _ =>
      fallback_qrng rb seqLength numSeqs nQubits iterations warmup initTheta
    | Except.ok measure =>
      match quantumPath measure nQubits iterations warmup initTheta
          seqLength numSeqs with
      | some r => some r
      | none =>
        fallback_qrng rb seqLength numSeqs nQubits iterations warmup initTheta

/-- `generate_quantum_otp` of src/quantum_otp_generator.py lines 7-31: run
    the adaptive QRNG with the fixed parameters of that call site and encode
    the first sequence.  Returns `none` where the Python code raises
    (`sequences[0]` on an empty list, or a crash inside `fallback_qrng`). -/
def generate_quantum_otp_adaptive (apiToken : Option String)
    (backend : Except String (Nat → List Bool)) (rb : BitSource)
    (length : Nat) : Option String :=
  match adaptive_rotation_qrng apiToken backend rb 5 2048 8 2
      (31415/20000) (1/2) (length * 4) 1 (1/100) with
  | none => none
  | some r =>
    match r.sequences with
    | [] => none
    | s :: _ => some (generate_quantum_otp s length)

/-! ## Structure of the generator results -/

lemma fallback_qrng_def (rb : BitSource) (sl ns n i w : Nat) (θ : Rat) :
    fallback_qrng rb sl ns n i w θ
      = if (collectedBitsFallback rb (sl * ns)).length = 0 then none
        else
          some ⟨mkHistory i w n θ,
                chunkBits (collectedBitsFallback rb (sl * ns)) sl,
                (((collectedBitsFallback rb (sl * ns)).length
                    - countOnes (collectedBitsFallback rb (sl * ns)) : Nat) : Rat)
                  / (((collectedBitsFallback rb (sl * ns)).length : Nat) : Rat),
                ((countOnes (collectedBitsFallback rb (sl * ns)) : Nat) : Rat)
                  / (((collectedBitsFallback rb (sl * ns)).length : Nat) : Rat)⟩ :=
  rfl

lemma chunkBits_flatten (sl : Nat) (hsl : sl ≠ 0) :
    ∀ (fuel : Nat) (bits : List Bool), bits.length ≤ fuel →
      (chunkBits bits sl).flatten = bits := by
  intro fuel
  induction fuel with
  | zero =>
    intro bits hb
    have : bits = [] := List.length_eq_zero.mp (Nat.le_zero.mp hb)
    subst this
    have hk : (0 + sl - 1) / sl = 0 := Nat.div_eq_of_lt (by omega)
    simp [chunkBits, hk]
  | succ fuel ih =>
    intro bits hb
    by_cases hnil : bits = []
    · subst hnil
      have hk : (0 + sl - 1) / sl = 0 := Nat.div_eq_of_lt (by omega)
      simp [chunkBits, hk]
    · have hlen : 1 ≤ bits.length := by
        have := List.length_pos.mpr hnil
        omega
      by_cases hsmall : bits.length ≤ sl
      · have hk : (bits.length + sl - 1) / sl = 1 := by
          apply Nat.div_eq_of_lt_le
          · omega
          · omega
        have htake : bits.take sl = bits := List.take_of_length_le hsmall
        simp [chunkBits, hk, List.range_succ, htake]
      · have hslt : sl < bits.length := by omega
        have hk : (bits.length + sl - 1) / sl
            = ((bits.length - sl) + sl - 1) / sl + 1 := by
          have heq : bits.length + sl - 1 = ((bits.length - sl) + sl - 1) + sl := by
            omega
          rw [heq, Nat.add_div_right _ (Nat.pos_of_ne_zero hsl)]
        have hdroplen : (bits.drop sl).length = bits.length - sl :=
          List.length_drop sl bits
        have ihdrop : (chunkBits (bits.drop sl) sl).flatten = bits.drop sl := by
          apply ih
          omega
        simp only [chunkBits, hk, List.range_succ_eq_map, List.map_cons,
          List.map_map, List.flatten_cons]
        have hzero : (bits.drop (0 * sl)).take sl = bits.take sl := by
          simp
        have hmaps :
            List.map ((fun i2 => (bits.drop (i2 * sl)).take sl) ∘ Nat.succ)
                (List.range (((bits.length - sl) + sl - 1) / sl))
              = List.map (fun i2 => ((bits.drop sl).drop (i2 * sl)).take sl)
                (List.range (((bits.length - sl) + sl - 1) / sl)) := by
          apply List.map_congr_left
          intro a _
          simp only [Function.comp]
          rw [List.drop_drop]
          congr 2
          rw [Nat.succ_mul]
          omega
        rw [hzero, hmaps]
        have : List.map (fun i2 => ((bits.drop sl).drop (i2 * sl)).take sl)
              (List.range (((bits.length - sl) + sl - 1) / sl))
            = chunkBits (bits.drop sl) sl := by
          simp only [chunkBits, hdroplen]
        rw [this, ihdrop, List.take_append_drop]

lemma probs_arith (T o : Nat) (hT : T ≠ 0) (ho : o ≤ T) :
    ((T - o : Nat) : Rat) / (T : Rat) + ((o : Nat) : Rat) / (T : Rat) = 1
    ∧ 0 ≤ ((T - o : Nat) : Rat) / (T : Rat)
    ∧ ((T - o : Nat) : Rat) / (T : Rat) ≤ 1
    ∧ 0 ≤ ((o : Nat) : Rat) / (T : Rat)
    ∧ ((o : Nat) : Rat) / (T : Rat) ≤ 1 := by
  have hTQ : ((T : Nat) : Rat) ≠ 0 := by
    exact_mod_cast hT
  have hTpos : (0 : Rat) < ((T : Nat) : Rat) := by
    have : 0 < T := Nat.pos_of_ne_zero hT
    exact_mod_cast this
  refine ⟨?_, ?_, ?_, ?_, ?_⟩
  · rw [div_add_div_same, Nat.cast_sub ho, sub_add_cancel]
    exact div_self hTQ
  · exact div_nonneg (Nat.cast_nonneg _) (le_of_lt hTpos)
  · rw [div_le_one hTpos]
    exact_mod_cast Nat.sub_le T o
  · exact div_nonneg (Nat.cast_nonneg _) (le_of_lt hTpos)
  · rw [div_le_one hTpos]
    exact_mod_cast ho

lemma quantumPath_def (measure : Nat → List Bool) (n i w : Nat) (θ : Rat)
    (sl ns : Nat) :
    quantumPath measure n i w θ sl ns
      = if n = 0 then none
        else
          if ((((List.range ((sl * ns + n - 1) / n)).map measure).flatten).take
                (sl * ns)).length = 0 then none
          else
            some ⟨mkHistory i w n θ,
                  chunkBits ((((List.range ((sl * ns + n - 1) / n)).map
                    measure).flatten).take (sl * ns)) sl,
                  ((((((List.range ((sl * ns + n - 1) / n)).map
                        measure).flatten).take (sl * ns)).length
                      - countOnes ((((List.range ((sl * ns + n - 1) / n)).map
                        measure).flatten).take (sl * ns)) : Nat) : Rat)
                    / (((((List.range ((sl * ns + n - 1) / n)).map
                        measure).flatten).take (sl * ns)).length : Rat),
                  ((countOnes ((((List.range ((sl * ns + n - 1) / n)).map
                        measure).flatten).take (sl * ns)) : Nat) : Rat)
                    / (((((List.range ((sl * ns + n - 1) / n)).map
                        measure).flatten).take (sl * ns)).length : Rat)⟩ :=
  rfl

lemma length_collectedBitsFallback (rb : BitSource) (totalBits : Nat) :
    (collectedBitsFallback rb totalBits).length = totalBits := by
  simp [collectedBitsFallback]

lemma qrngResult_probs_ok (hist : List RoundRecord) (bits : List Bool)
    (sl2 : Nat) (hsl : sl2 ≠ 0) (hlen : bits.length ≠ 0) (r : QrngResult)
    (hr : r = ⟨hist, chunkBits bits sl2,
      ((bits.length - countOnes bits : Nat) : Rat) / (bits.length : Rat),
      ((countOnes bits : Nat) : Rat) / (bits.length : Rat)⟩) :
    r.p0 = ((r.sequences.flatten.length - countOnes r.sequences.flatten : Nat) : Rat)
        / (r.sequences.flatten.length : Rat)
    ∧ r.p1 = ((countOnes r.sequences.flatten : Nat) : Rat)
        / (r.sequences.flatten.length : Rat)
    ∧ r.p0 + r.p1 = 1
    ∧ 0 ≤ r.p0 ∧ r.p0 ≤ 1 ∧ 0 ≤ r.p1 ∧ r.p1 ≤ 1 := by
  subst hr
  have hflat : (chunkBits bits sl2).flatten = bits :=
    chunkBits_flatten sl2 hsl bits.length bits le_rfl
  have hcount : countOnes bits ≤ bits.length := List.count_le_length true bits
  obtain ⟨h1, h2, h3, h4, h5⟩ :=
    probs_arith bits.length (countOnes bits) hlen hcount
  simp only [hflat]
  exact ⟨trivial, trivial, h1, h2, h3, h4, h5⟩

lemma balance_of_fallback (rb : BitSource) (sl ns n i w : Nat) (θ : Rat)
    (r : QrngResult) (h : fallback_qrng rb sl ns n i w θ = some r) :
    r.p0 = ((r.sequences.flatten.length - countOnes r.sequences.flatten : Nat) : Rat)
        / (r.sequences.flatten.length : Rat)
    ∧ r.p1 = ((countOnes r.sequences.flatten : Nat) : Rat)
        / (r.sequences.flatten.length : Rat)
    ∧ r.p0 + r.p1 = 1
    ∧ 0 ≤ r.p0 ∧ r.p0 ≤ 1 ∧ 0 ≤ r.p1 ∧ r.p1 ≤ 1 := by
  rw [fallback_qrng_def] at h
  by_cases h0 : (collectedBitsFallback rb (sl * ns)).length = 0
  · rw [if_pos h0] at h
    exact absurd h (by simp)
  · rw [if_neg h0] at h
    have hr := (Option.some.inj h).symm
    have hsl : sl ≠ 0 := by
      intro hs
      apply h0
      rw [length_collectedBitsFallback]
      simp [hs]
    exact qrngResult_probs_ok _ _ sl hsl h0 r hr

lemma balance_of_quantumPath (measure : Nat → List Bool) (n i w : Nat)
    (θ : Rat) (sl ns : Nat) (r : QrngResult)
    (h : quantumPath measure n i w θ sl ns = some r) :
    r.p0 = ((r.sequences.flatten.length - countOnes r.sequences.flatten : Nat) : Rat)
        / (r.sequences.flatten.length : Rat)
    ∧ r.p1 = ((countOnes r.sequences.flatten : Nat) : Rat)
        / (r.sequences.flatten.length : Rat)
    ∧ r.p0 + r.p1 = 1
    ∧ 0 ≤ r.p0 ∧ r.p0 ≤ 1 ∧ 0 ≤ r.p1 ∧ r.p1 ≤ 1 := by
  rw [quantumPath_def] at h
  by_cases hn : n = 0
  · rw [if_pos hn] at h
    exact absurd h (by simp)
  · rw [if_neg hn] at h
    by_cases h0 : ((((List.range ((sl * ns + n - 1) / n)).map
          measure).flatten).take (sl * ns)).length = 0
    · rw [if_pos h0] at h
      exact absurd h (by simp)
    · rw [if_neg h0] at h
      have hr := (Option.some.inj h).symm
      have hsl : sl ≠ 0 := by
        intro hs
        apply h0
        simp [hs]
      exact qrngResult_probs_ok _ _ sl hsl h0 r hr

/-- C7: every result returned by the generator carries a Balance Summary
    computed over the entire truncated bit stream as the zero fraction and
    the one fraction; the two always add to one and each lies in the unit
    interval. -/
theorem adaptive_rotation_qrng_balance_summary (tok : Option String)
    (be : Except String (Nat → List Bool)) (rb : BitSource)
    (n s i w : Nat) (θ lr : Rat) (sl ns : Nat) (t : Rat) (r : QrngResult)
    (h : adaptive_rotation_qrng tok be rb n s i w θ lr sl ns t = some r) :
    r.p0 = ((r.sequences.flatten.length - countOnes r.sequences.flatten : Nat) : Rat)
        / (r.sequences.flatten.length : Rat)
    ∧ r.p1 = ((countOnes r.sequences.flatten : Nat) : Rat)
        / (r.sequences.flatten.length : Rat)
    ∧ r.p0 + r.p1 = 1
    ∧ 0 ≤ r.p0 ∧ r.p0 ≤ 1 ∧ 0 ≤ r.p1 ∧ r.p1 ≤ 1 := by
  cases tok with
  | none =>
    exact balance_of_fallback rb sl ns n i w θ r h
  | some tk =>
    cases be with
    | error e =>
      exact balance_of_fallback rb sl ns n i w θ r h
    | ok measure =>
      simp only [adaptive_rotation_qrng] at h
      cases hq : quantumPath measure n i w θ sl ns with
      | none =>
        rw [hq] at h
        exact balance_of_fallback rb sl ns n i w θ r h
      | some q =>
        rw [hq] at h
        have : q = r := Option.some.inj h
        subst this
        exact balance_of_quantumPath measure n i w θ sl ns q hq

/-- Witness for C7: a concrete accepted generation (one all-ones bit) whose
    summary is p0 = 0, p1 = 1, checked through the theorem. -/
theorem adaptive_rotation_qrng_balance_summary_witness :
    adaptive_rotation_qrng none (Except.error "") (fun _ => true) 4 2048 0 0
        0 0 1 1 0 = some (⟨[], [[true]], 0, 1⟩ : QrngResult)
    ∧ ((⟨[], [[true]], 0, 1⟩ : QrngResult).p0
          = (((⟨[], [[true]], 0, 1⟩ : QrngResult).sequences.flatten.length
              - countOnes (⟨[], [[true]], 0, 1⟩ : QrngResult).sequences.flatten : Nat) : Rat)
            / ((⟨[], [[true]], 0, 1⟩ : QrngResult).sequences.flatten.length : Rat)
       ∧ (⟨[], [[true]], 0, 1⟩ : QrngResult).p1
          = ((countOnes (⟨[], [[true]], 0, 1⟩ : QrngResult).sequences.flatten : Nat) : Rat)
            / ((⟨[], [[true]], 0, 1⟩ : QrngResult).sequences.flatten.length : Rat)
       ∧ (⟨[], [[true]], 0, 1⟩ : QrngResult).p0
            + (⟨[], [[true]], 0, 1⟩ : QrngResult).p1 = 1
       ∧ 0 ≤ (⟨[], [[true]], 0, 1⟩ : QrngResult).p0
       ∧ (⟨[], [[true]], 0, 1⟩ : QrngResult).p0 ≤ 1
       ∧ 0 ≤ (⟨[], [[true]], 0, 1⟩ : QrngResult).p1
       ∧ (⟨[], [[true]], 0, 1⟩ : QrngResult).p1 ≤ 1) := by
  have h : adaptive_rotation_qrng none (Except.error "") (fun _ => true) 4
      2048 0 0 0 0 1 1 0 = some (⟨[], [[true]], 0, 1⟩ : QrngResult) := by
    simp [adaptive_rotation_qrng, fallback_qrng_def, collectedBitsFallback,
      countOnes, chunkBits, mkHistory, List.range_succ]
  exact ⟨h, adaptive_rotation_qrng_balance_summary none (Except.error "")
    (fun _ => true) 4 2048 0 0 0 0 1 1 0 ⟨[], [[true]], 0, 1⟩ h⟩

/-- C2 counterexample: with every parameter at its source default
    (tolerance 0.009) and an all-ones bit source, the generator returns a
    result whose Balance Summary is p0 = 0, p1 = 1, violating
    the bound that the claim says every returned generation satisfies;
    nothing is discarded and no restart happens. -/
theorem adaptive_rotation_qrng_tolerance_cex :
    (adaptive_rotation_qrng none (Except.error "") (fun _ => true) 4 2048 8 2
        (157/100) (1/2) 1 1 (9/1000)).map (fun r => (r.p0, r.p1))
      = some (0, 1)
    ∧ ¬ |(0 : Rat) - 1| ≤ 9/1000 := by
  constructor
  · simp [adaptive_rotation_qrng, fallback_qrng_def, collectedBitsFallback,
      countOnes, chunkBits, List.range_succ]
  · norm_num

/-- C2 amended: the generator applies no balance acceptance gate on any
    path (token absent, backend error, or IBM-backend success): the
    tolerance argument never influences the result, and whenever the
    requested stream is nonempty the first attempt is returned as is,
    with no discard or restart. -/
theorem adaptive_rotation_qrng_no_tolerance_gate (tok : Option String)
    (be : Except String (Nat → List Bool)) (rb : BitSource)
    (n s i w : Nat) (θ lr : Rat) (sl ns : Nat) (t1 t2 : Rat)
    (h : 0 < sl * ns) :
    adaptive_rotation_qrng tok be rb n s i w θ lr sl ns t1
      = adaptive_rotation_qrng tok be rb n s i w θ lr sl ns t2
    ∧ (adaptive_rotation_qrng tok be rb n s i w θ lr sl ns t1).isSome = true := by
  constructor
  · rfl
  · have hne : (collectedBitsFallback rb (sl * ns)).length ≠ 0 := by
      rw [length_collectedBitsFallback]
      omega
    have hfb : (fallback_qrng rb sl ns n i w θ).isSome = true := by
      simp only [fallback_qrng_def, if_neg hne, Option.isSome_some]
    cases tok with
    | none =>
      simpa only [adaptive_rotation_qrng] using hfb
    | some tk =>
      cases be with
      | error e =>
        simpa only [adaptive_rotation_qrng] using hfb
      | ok measure =>
        simp only [adaptive_rotation_qrng]
        cases hq : quantumPath measure n i w θ sl ns with
        | none => simpa only using hfb
        | some q => simp

/-- Witness for the amended C2 statement on the IBM-backend path at
    concrete source defaults. -/
theorem adaptive_rotation_qrng_no_tolerance_gate_witness :
    adaptive_rotation_qrng (some "k")
        (Except.ok (fun _ => [true, true, true, true])) (fun _ => false) 4
        2048 8 2 (157/100) (1/2) 10 20 (9/1000)
      = adaptive_rotation_qrng (some "k")
          (Except.ok (fun _ => [true, true, true, true])) (fun _ => false) 4
          2048 8 2 (157/100) (1/2) 10 20 1
    ∧ (adaptive_rotation_qrng (some "k")
        (Except.ok (fun _ => [true, true, true, true])) (fun _ => false) 4
        2048 8 2 (157/100) (1/2) 10 20 (9/1000)).isSome = true :=
  adaptive_rotation_qrng_no_tolerance_gate (some "k")
    (Except.ok (fun _ => [true, true, true, true])) (fun _ => false)
    4 2048 8 2 (157/100) (1/2) 10 20 (9/1000) 1 (by decide)

/-- C4 counterexample: with the token absent (randomness source
    unavailable) the call is not fatal: it silently returns the result of
    the internal fallback generator. -/
theorem adaptive_rotation_qrng_fallback_cex :
    adaptive_rotation_qrng none (Except.error "no service") (fun _ => false)
        4 2048 8 2 (157/100) (1/2) 10 20 (9/1000)
      = fallback_qrng (fun _ => false) 10 20 4 8 2 (157/100)
    ∧ (adaptive_rotation_qrng none (Except.error "no service")
        (fun _ => false) 4 2048 8 2 (157/100) (1/2) 10 20 (9/1000)).isSome
        = true := by
  refine ⟨rfl, ?_⟩
  simp [adaptive_rotation_qrng, fallback_qrng_def, length_collectedBitsFallback]

/-- C4 amended: when the token is missing, and likewise when the backend
    raises, `adaptive_rotation_qrng` returns the internal `fallback_qrng`
    result instead of failing: the fallback policy lives inside the core. -/
theorem adaptive_rotation_qrng_silent_fallback
    (be : Except String (Nat → List Bool)) (rb : BitSource)
    (n s i w : Nat) (θ lr : Rat) (sl ns : Nat) (t : Rat) (tok err : String) :
    adaptive_rotation_qrng none be rb n s i w θ lr sl ns t
      = fallback_qrng rb sl ns n i w θ
    ∧ adaptive_rotation_qrng (some tok) (Except.error err) rb n s i w θ lr
        sl ns t = fallback_qrng rb sl ns n i w θ :=
  ⟨rfl, rfl⟩

lemma collectedBitsFallback_congr (rb1 rb2 : BitSource) (total : Nat)
    (h : ∀ j, j < total → rb1 j = rb2 j) :
    collectedBitsFallback rb1 total = collectedBitsFallback rb2 total := by
  apply List.map_congr_left
  intro a ha
  exact h a (List.mem_range.mp ha)

lemma fallback_qrng_congr (rb1 rb2 : BitSource) (sl ns n i w : Nat) (θ : Rat)
    (h : ∀ j, j < sl * ns → rb1 j = rb2 j) :
    fallback_qrng rb1 sl ns n i w θ = fallback_qrng rb2 sl ns n i w θ := by
  have hc : collectedBitsFallback rb1 (sl * ns)
      = collectedBitsFallback rb2 (sl * ns) :=
    collectedBitsFallback_congr rb1 rb2 (sl * ns) h
  rw [fallback_qrng_def, fallback_qrng_def, hc]

/-- C8: with a deterministic randomness source, the generator output
    (history, bit stream, sequences and the derived OTP) is a function of
    the bits the source supplies: two calls with identical parameters whose
    sources agree on the consumed draws give identical results and OTPs. -/
theorem adaptive_qrng_deterministic (rb1 rb2 : BitSource)
    (be : Except String (Nat → List Bool)) (sl ns n i w : Nat) (θ : Rat)
    (L : Nat) (h : ∀ j, j < sl * ns → rb1 j = rb2 j)
    (hL : ∀ j, j < L * 4 → rb1 j = rb2 j) :
    fallback_qrng rb1 sl ns n i w θ = fallback_qrng rb2 sl ns n i w θ
    ∧ generate_quantum_otp_adaptive none be rb1 L
      = generate_quantum_otp_adaptive none be rb2 L := by
  refine ⟨fallback_qrng_congr rb1 rb2 sl ns n i w θ h, ?_⟩
  have h2 : fallback_qrng rb1 (L * 4) 1 5 8 2 (31415/20000)
      = fallback_qrng rb2 (L * 4) 1 5 8 2 (31415/20000) := by
    apply fallback_qrng_congr
    intro j hj
    apply hL
    simpa using hj
  simp only [generate_quantum_otp_adaptive, adaptive_rotation_qrng, h2]

/-- Witness for C8: two syntactically different sources that agree on the
    consumed prefix give identical generator results and OTPs. -/
theorem adaptive_qrng_deterministic_witness :
    fallback_qrng (fun _ => true) 2 10 4 8 2 (157/100)
      = fallback_qrng (fun j => decide (j < 100)) 2 10 4 8 2 (157/100)
    ∧ generate_quantum_otp_adaptive none (Except.error "") (fun _ => true) 6
      = generate_quantum_otp_adaptive none (Except.error "")
          (fun j => decide (j < 100)) 6 :=
  adaptive_qrng_deterministic (fun _ => true) (fun j => decide (j < 100))
    (Except.error "") 2 10 4 8 2 (157/100) 6 (by decide) (by decide)

/-! ## The web layer (src/chatapp.py) -/

/-- One entry of the in-memory `user_store` of src/chatapp.py line 26:
    request-otp stores `{"otp": code, "otp_expiration": time}` and a
    successful verification overwrites both fields with `None`. -/
structure UserData where
  otp : Option String
  otpExpiration : Option Nat
deriving DecidableEq

/-- The in-memory store, keyed by email. -/
abbrev Store := String → Option UserData

/-- Assignment `user_store[email] = d`. -/
def updateStore (store : Store) (email : String) (d : UserData) : Store :=
  fun e => if e = email then some d else store e

/-- An HTTP response: status code, body message, and the token field of the
    verification success payload. -/
structure Response where
  status : Nat
  body : String
  token : Option String
deriving DecidableEq

/-- `send_otp_by_email` of src/chatapp.py lines 49-69.  `creds` is the pair
    of environment credentials; `smtpOk` is the outcome of the SMTP session.
    Missing credentials raise a ValueError (modelled as `Except.error`); an
    SMTP failure is caught inside the function, which then returns `False`
    (src/chatapp.py lines 67-69). -/
def send_otp_by_email (creds : Option (String × String)) (smtpOk : Bool)
    (otpCode recipientEmail : String) : Except String Bool :=
  match creds with
  | none =>
    Except.error "Email credentials (EMAIL_ADDRESS, EMAIL_PASSWORD) are not set."
  | some _ => Except.ok smtpOk

/-- `request_otp` of src/chatapp.py lines 72-87.  The measured quantum bits
    of `generate_quantum_otp(6)` are injected as `measuredBits`; `now` is
    the current time in seconds, and the stored expiry is five minutes
    later.  The handler catches exceptions of the send and reports 500;
    a send that merely returns `False` is reported as success. -/
def request_otp (store : Store) (email : String) (measuredBits : List Bool)
    (now : Nat) (creds : Option (String × String)) (smtpOk : Bool) :
    Store × Response :=
  if email = "" then (store, ⟨400, "Email is required", none⟩)
  else
    let otp := generate_quantum_otp measuredBits 6
    let store2 := updateStore store email ⟨some otp, some (now + 300)⟩
    match send_otp_by_email creds smtpOk otp email with
    | Except.error _ => (store2, ⟨500, "Failed to send OTP email.", none⟩)
    | Except.ok _ =>
      (store2, ⟨200, "OTP sent to " ++ email ++ ".", none⟩)

/-- `verify_otp` of src/chatapp.py lines 89-115.  `jwtEncode` is the JWT
    collaborator (payload email and expiry time).  Comparing the submitted
    code against a stored entry whose expiration is `None` would raise a
    TypeError in Python; that branch is modelled as `Except.error` (it is
    unreachable from entries the handlers write, since the code comparison
    fails first on a used entry). -/
def verify_otp (store : Store) (jwtEncode : String → Nat → String)
    (email submittedOtp : String) (now : Nat) :
    Except String (Store × Response) :=
  if email = "" ∨ submittedOtp = "" then
    Except.ok (store, ⟨400, "Email and OTP are required", none⟩)
  else
    match store email with
    | none => Except.ok (store, ⟨404, "No OTP found for this email", none⟩)
    | some ud =>
      if ud.otp ≠ some submittedOtp then
        Except.ok (store, ⟨400, "Invalid OTP.", none⟩)
      else
        match ud.otpExpiration with
        | none => Except.error "TypeError"
        | some expiry =>
          if now > expiry then
            Except.ok (store, ⟨400, "OTP has expired.", none⟩)
          else
            Except.ok (updateStore store email ⟨none, none⟩,
              ⟨200, "Verification successful!",
               some (jwtEncode email (now + 86400))⟩)

/-- The possible outcomes of the JWT decode collaborator in `get_profile`. -/
inductive JwtOutcome where
  | valid (email : String)
  | expired
  | invalid
deriving DecidableEq

/-- The Python `header.split(" ")` with kept empty fields: splitting a
    character list on the space character. -/
def splitOnSpace (cs : List Char) : List (List Char) :=
  match cs with
  | [] => [[]]
  | c :: rest =>
    let r := splitOnSpace rest
    if c = ' ' then [] :: r
    else
      match r with
      | [] => [[c]]
      | g :: gs => (c :: g) :: gs

/-- `get_profile` of src/chatapp.py lines 117-130.  `jwtDecode` is the JWT
    collaborator.  The handler catches only the two JWT exceptions; the
    IndexError of `auth_header.split(" ")[1]` on a header without a second
    space-separated field propagates unhandled (`Except.error`). -/
def get_profile (authHeader : Option String)
    (jwtDecode : String → JwtOutcome) : Except String Response :=
  match authHeader with
  | none => Except.ok ⟨401, "Authorization header missing", none⟩
  | some h =>
    if h = "" then Except.ok ⟨401, "Authorization header missing", none⟩
    else
      match (splitOnSpace h.data)[1]? with
      | none => Except.error "IndexError"
      | some tokenChars =>
        match jwtDecode (String.mk tokenChars) with
        | JwtOutcome.valid email => Except.ok ⟨200, email, none⟩
        | JwtOutcome.expired => Except.ok ⟨401, "Token expired", none⟩
        | JwtOutcome.invalid => Except.ok ⟨401, "Invalid token", none⟩

/-- C9: every request with a nonempty email overwrites the stored entry for
    that email with the freshly generated code and a five-minute expiry,
    for every previous store content and every outcome of the email send
    (the store update precedes the send attempt), while entries of other
    recipients are untouched. -/
theorem request_otp_overwrites_store_before_send (store : Store)
    (email : String) (bits : List Bool) (now : Nat)
    (creds : Option (String × String)) (smtpOk : Bool) (e2 : String)
    (h : email ≠ "") (he2 : e2 ≠ email) :
    (request_otp store email bits now creds smtpOk).1 email
      = some ⟨some (generate_quantum_otp bits 6), some (now + 300)⟩
    ∧ (request_otp store email bits now creds smtpOk).1 e2 = store e2 := by
  have hupd1 : updateStore store email
      ⟨some (generate_quantum_otp bits 6), some (now + 300)⟩ email
      = some ⟨some (generate_quantum_otp bits 6), some (now + 300)⟩ := by
    simp [updateStore]
  have hupd2 : updateStore store email
      ⟨some (generate_quantum_otp bits 6), some (now + 300)⟩ e2 = store e2 := by
    simp [updateStore, he2]
  cases creds with
  | none =>
    simp only [request_otp, if_neg h, send_otp_by_email]
    exact ⟨hupd1, hupd2⟩
  | some c =>
    simp only [request_otp, if_neg h, send_otp_by_email]
    exact ⟨hupd1, hupd2⟩

/-- Witness for C9 at a concrete store, recipient and clock. -/
theorem request_otp_overwrites_store_before_send_witness :
    (request_otp (fun _ => none) "u@x" [false] 7 none true).1 "u@x"
      = some ⟨some (generate_quantum_otp [false] 6), some (7 + 300)⟩
    ∧ (request_otp (fun _ => none) "u@x" [false] 7 none true).1 "other"
      = (fun _ => none : Store) "other" :=
  request_otp_overwrites_store_before_send (fun _ => none) "u@x" [false] 7
    none true "other" (by decide) (by decide)

/-- C5 (evaluation of the defect): with credentials set and a failing SMTP
    session, `send_otp_by_email` swallows the failure and returns `False`;
    `request_otp` ignores that return value and answers 200 with the
    success message, while the freshly generated code stays stored. -/
theorem request_otp_reports_success_on_delivery_failure :
    send_otp_by_email (some ("sender@x", "pw")) false
        (generate_quantum_otp [true] 6) "u@x" = Except.ok false
    ∧ (request_otp (fun _ => none) "u@x" [true] 0 (some ("sender@x", "pw"))
        false).2 = ⟨200, "OTP sent to u@x.", none⟩
    ∧ (request_otp (fun _ => none) "u@x" [true] 0 (some ("sender@x", "pw"))
        false).1 "u@x" = some ⟨some "000001", some 300⟩ := by
  refine ⟨rfl, ?_, ?_⟩ <;> decide

/-- C3: a stored code verifies successfully before its expiry and the entry
    is invalidated to a used sentinel, so a second submission of the same
    code is rejected as invalid; after the expiry time the same code is
    rejected as expired. -/
theorem verify_otp_single_use (store : Store) (jwtE : String → Nat → String)
    (email code : String) (expiry now1 now2 now3 : Nat)
    (hemail : email ≠ "") (hcode : code ≠ "")
    (hstore : store email = some ⟨some code, some expiry⟩)
    (h1 : now1 ≤ expiry) (h3 : expiry < now3) :
    verify_otp store jwtE email code now1
      = Except.ok (updateStore store email ⟨none, none⟩,
          ⟨200, "Verification successful!", some (jwtE email (now1 + 86400))⟩)
    ∧ verify_otp (updateStore store email ⟨none, none⟩) jwtE email code now2
      = Except.ok (updateStore store email ⟨none, none⟩,
          ⟨400, "Invalid OTP.", none⟩)
    ∧ verify_otp store jwtE email code now3
      = Except.ok (store, ⟨400, "OTP has expired.", none⟩) := by
  have hgt : ¬ now1 > expiry := by omega
  refine ⟨?_, ?_, ?_⟩
  · simp [verify_otp, hemail, hcode, hstore, hgt]
  · simp [verify_otp, hemail, hcode, updateStore]
  · simp [verify_otp, hemail, hcode, hstore, h3]

/-- Witness for C3 at a concrete store, code and clock values. -/
theorem verify_otp_single_use_witness :
    verify_otp
        (fun e => if e = "a@b.c" then some ⟨some "123456", some 100⟩ else none)
        (fun e _ => e) "a@b.c" "123456" 50
      = Except.ok (updateStore
          (fun e => if e = "a@b.c" then some ⟨some "123456", some 100⟩
           else none) "a@b.c" ⟨none, none⟩,
          ⟨200, "Verification successful!", some "a@b.c"⟩)
    ∧ verify_otp (updateStore
          (fun e => if e = "a@b.c" then some ⟨some "123456", some 100⟩
           else none) "a@b.c" ⟨none, none⟩)
        (fun e _ => e) "a@b.c" "123456" 60
      = Except.ok (updateStore
          (fun e => if e = "a@b.c" then some ⟨some "123456", some 100⟩
           else none) "a@b.c" ⟨none, none⟩, ⟨400, "Invalid OTP.", none⟩)
    ∧ verify_otp
        (fun e => if e = "a@b.c" then some ⟨some "123456", some 100⟩ else none)
        (fun e _ => e) "a@b.c" "123456" 200
      = Except.ok
          ((fun e => if e = "a@b.c" then some ⟨some "123456", some 100⟩
            else none : Store), ⟨400, "OTP has expired.", none⟩) :=
  verify_otp_single_use
    (fun e => if e = "a@b.c" then some ⟨some "123456", some 100⟩ else none)
    (fun e _ => e) "a@b.c" "123456" 100 50 60 200 (by decide) (by decide)
    (by decide) (by decide) (by decide)

/-- C10: a present, nonempty Authorization header without a second
    space-separated field makes the profile handler raise an unhandled
    IndexError instead of answering 401; and every 401 answer of the
    handler is one of the three bodies missing header, expired token, or
    invalid token. -/
theorem get_profile_index_error_on_missing_bearer (h : String)
    (d : String → JwtOutcome) (a : Option String) (r : Response)
    (hne : h ≠ "") (hs : (splitOnSpace h.data).length = 1)
    (hr : get_profile a d = Except.ok r) (h401 : r.status = 401) :
    get_profile (some h) d = Except.error "IndexError"
    ∧ (r.body = "Authorization header missing" ∨ r.body = "Token expired"
       ∨ r.body = "Invalid token") := by
  constructor
  · have hnone : (splitOnSpace h.data)[1]? = none :=
      List.getElem?_eq_none (by omega)
    simp [get_profile, hne, hnone]
  · cases a with
    | none =>
      simp only [get_profile] at hr
      injection hr with hr
      subst hr
      left
      rfl
    | some h2 =>
      simp only [get_profile] at hr
      by_cases h0 : h2 = ""
      · rw [if_pos h0] at hr
        injection hr with hr
        subst hr
        left
        rfl
      · rw [if_neg h0] at hr
        cases hsp : (splitOnSpace h2.data)[1]? with
        | none =>
          rw [hsp] at hr
          simp at hr
        | some tk =>
          rw [hsp] at hr
          cases hd : d (String.mk tk) with
          | valid em =>
            simp only [hd] at hr
            injection hr with hr
            subst hr
            simp at h401
          | expired =>
            simp only [hd] at hr
            injection hr with hr
            subst hr
            right
            left
            rfl
          | invalid =>
            simp only [hd] at hr
            injection hr with hr
            subst hr
            right
            right
            rfl

/-- Witness for C10: the bare header value sometoken (no space) hits the
    IndexError, while the missing-header 401 response carries one of the
    three bodies. -/
theorem get_profile_index_error_on_missing_bearer_witness :
    get_profile (some "sometoken") (fun _ => JwtOutcome.invalid)
      = Except.error "IndexError"
    ∧ ((⟨401, "Authorization header missing", none⟩ : Response).body
          = "Authorization header missing"
       ∨ (⟨401, "Authorization header missing", none⟩ : Response).body
          = "Token expired"
       ∨ (⟨401, "Authorization header missing", none⟩ : Response).body
          = "Invalid token") :=
  get_profile_index_error_on_missing_bearer "sometoken"
    (fun _ => JwtOutcome.invalid) none
    ⟨401, "Authorization header missing", none⟩ (by decide) (by decide) rfl
    rfl

/-! ## The adaptive bias update (spec section 4.2 step c) -/

/-- Modelled from the spec: the per-channel proportional feedback update of
    the Adaptive Controller, spec section 4.2 step c.  The feedback
    controller is missing from src/adaptive_qrng.py, whose history records
    keep every theta constant; this definition follows the words of the
    spec: add `learning_rate * (0.5 - p1)` to the bias parameter of the
    channel, then clamp to the interval from 0 to pi. -/
noncomputable def updateBias (lr p1 bias : Real) : Real :=
  min Real.pi (max 0 (bias + lr * (1/2 - p1)))

/-- C6: the bias update adds `learning_rate * (0.5 - p1)` and clamps to
    `[0, pi]`; for a positive learning rate the pre-clamp value strictly
    increases when the observed p1 is below one half and strictly decreases
    when it is above one half. -/
theorem updateBias_monotone_toward_half (lr p1 bias : Real) (hlr : 0 < lr) :
    updateBias lr p1 bias = min Real.pi (max 0 (bias + lr * (1/2 - p1)))
    ∧ (p1 < 1/2 → bias < bias + lr * (1/2 - p1))
    ∧ (1/2 < p1 → bias + lr * (1/2 - p1) < bias) := by
  refine ⟨rfl, fun hp => ?_, fun hp => ?_⟩
  · nlinarith
  · nlinarith

/-- Witness for C6 at learning rate 1, observed p1 of 0 and bias 0. -/
theorem updateBias_monotone_toward_half_witness :
    (0 : Real) < 1
    ∧ (updateBias 1 0 0 = min Real.pi (max 0 (0 + 1 * (1/2 - 0)))
       ∧ ((0 : Real) < 1/2 → (0 : Real) < 0 + 1 * (1/2 - 0))
       ∧ ((1/2 : Real) < 0 → (0 : Real) + 1 * (1/2 - 0) < 0)) :=
  ⟨zero_lt_one, updateBias_monotone_toward_half 1 0 0 zero_lt_one⟩
